import Mathlib

/-!
# Verification of the name-radar evidence-aggregation engine

A shallow embedding of the pure core of `check_name_professional.js` and its
helper modules (`src/utils/scoring.js`, `src/utils/validators.js`,
`src/modules/social-probe.js`, `src/config/constants.js`), together with
proofs about the behaviours the specification describes.

JavaScript strings are modelled as Lean `String`/`List Char`.  The JS
operations are embedded on the ASCII fragment the tool works over:
`toLowerCase` maps `A`-`Z` to `a`-`z` and is the identity elsewhere, and
`normalize("NFKD")` is the identity (NFKD is the identity on ASCII).  The
Unicode character classes `\p{Letter}` and `\p{Number}` are modelled by the
ASCII letter and digit classes.  JS numbers appearing in the scoring code are
modelled by `Nat`/`Int`/`Rat` (the quantities involved are small integers and
exact small-denominator fractions, where IEEE doubles are exact).
-/

namespace NameRadar

/-! ## ASCII character classes and JS string primitives -/
/-- ASCII uppercase letter, `A`-`Z` (codes 65-90). -/
def isUpperA (c : Char) : Bool := 65 ≤ c.toNat && c.toNat ≤ 90

/-- ASCII lowercase letter, `a`-`z` (codes 97-122). -/
def isLowerA (c : Char) : Bool := 97 ≤ c.toNat && c.toNat ≤ 122

/-- ASCII digit, `0`-`9` (codes 48-57). -/
def isDigitA (c : Char) : Bool := 48 ≤ c.toNat && c.toNat ≤ 57

/-- ASCII letter. -/
def isAlphaA (c : Char) : Bool := isUpperA c || isLowerA c

/-- JS `String.prototype.toLowerCase`, per character, on the ASCII fragment. -/
def jsToLower (c : Char) : Char :=
  if isUpperA c then Char.ofNat (c.toNat + 32) else c

/-- Lowercase a whole JS string (as a character list). -/
def lowerList (l : List Char) : List Char := l.map jsToLower

/-- JS `String.prototype.toLowerCase` on `String`. -/
def jsToLowerStr (s : String) : String := String.mk (lowerList s.toList)

/-- `needle` occurs contiguously inside `hay`: JS `hay.includes(needle)`
restricted to lists of characters. -/
def listIsInfix (needle hay : List Char) : Bool :=
  (List.range (hay.length + 1)).any fun i => needle.isPrefixOf (hay.drop i)

/-- JS `hay.includes(needle)`. -/
def jsIncludes (hay needle : String) : Bool := listIsInfix needle.toList hay.toList

/-- JS `s.startsWith(pre)`. -/
def jsStartsWith (s pre : String) : Bool := pre.toList.isPrefixOf s.toList

/-- JS `s.endsWith(suf)`. -/
def jsEndsWith (s suf : String) : Bool := suf.toList.isSuffixOf s.toList

/-- JS truthiness of a nullable string: `null` and `""` are falsy. -/
def jsTruthyStr (s : Option String) : Bool :=
  match s with
  | none => false
  | some s => s ≠ ""

/-- Replace every maximal run of characters satisfying `p` by the single
character `rep` — the JS `replace(/[cls]+/g, rep)` idiom.  The flag records
whether the previous character was part of a run. -/
def collapseRuns (p : Char → Bool) (rep : Char) : Bool → List Char → List Char
  | _, [] => []
  | inRun, c :: cs =>
    if p c then
      if inRun then collapseRuns p rep true cs
      else rep :: collapseRuns p rep true cs
    else c :: collapseRuns p rep false cs

/-- Drop the maximal suffix of characters satisfying `p` — the JS
`replace(/[cls]+$/, "")` idiom. -/
def trimEnd (p : Char → Bool) (l : List Char) : List Char :=
  (l.reverse.dropWhile p).reverse

/-! ## The name normalizer (`check_name_professional.js`, lines 52-67) -/
/-- Character class of `slugLettersDigitsHyphen`: kept by the regex
`/[^\p{Letter}\p{Number}-]+/gu → ""` (ASCII fragment). -/
def isSlugChar (c : Char) : Bool := isAlphaA c || isDigitA c || c == '-'

/-- `slugLettersDigitsHyphen`: lowercase, NFKD (identity on the modelled
fragment), strip everything but letters, digits and hyphens. -/
def slugLettersDigitsHyphen (s : String) : String :=
  String.mk ((lowerList s.toList).filter isSlugChar)

/-- Character class `[a-z0-9-]` used by `toDomainBase`. -/
def isDomainChar (c : Char) : Bool := isLowerA c || isDigitA c || c == '-'

/-- Whitespace or underscore: the class `[\s_]` collapsed to `-`. -/
def isWsU (c : Char) : Bool := c.isWhitespace || c == '_'

/-- `toDomainBase` on character lists: lowercase, NFKD (identity here),
`[\s_]+ → "-"`, strip `[^a-z0-9-]`, `-+ → "-"`, trim `^-+` and `-+$`. -/
def toDomainBaseList (l : List Char) : List Char :=
  trimEnd (· == '-')
    (List.dropWhile (· == '-')
      (collapseRuns (· == '-') '-' false
        ((collapseRuns isWsU '-' false (lowerList l)).filter isDomainChar)))

/-- `toDomainBase` (`check_name_professional.js`, lines 58-67). -/
def toDomainBase (name : String) : String := String.mk (toDomainBaseList name.toList)

/-! ## Lemmas about `collapseRuns`, `dropWhile` and `trimEnd` -/
/-- No two adjacent characters of `l` both satisfy `p`. -/
def NoRun (p : Char → Bool) (l : List Char) : Prop :=
  l.Chain' fun a b => ¬(p a = true ∧ p b = true)

/-- The head of `l` (if any) does not satisfy `p`. -/
def HeadSafe (p : Char → Bool) (l : List Char) : Prop :=
  ∀ c ∈ l.head?, p c = false

/-! ## Candidate domain generator (`src/config/constants.js`,
`check_name_professional.js` lines 300-307) -/
/-- `BUSINESS_TLDS.global`. -/
def BUSINESS_TLDS_global : List String :=
  [ "com", "net", "org", "io", "co", "ai", "app", "dev", "biz", "tech", "inc"]

/-- `BUSINESS_TLDS.indonesia`. -/
def BUSINESS_TLDS_indonesia : List String :=
  [ "id", "co.id", "web.id", "sch.id", "ac.id", "or.id"]

/-- `BUSINESS_TLDS.startup`. -/
def BUSINESS_TLDS_startup : List String :=
  [ "io", "ai", "tech", "dev", "app", "digital", "cloud"]

/-- JS `[...new Set(list)]`: keep the first occurrence of each element. -/
def jsUniqAux (seen : List String) : List String → List String
  | [] => []
  | x :: xs => if x ∈ seen then jsUniqAux seen xs else x :: jsUniqAux (x :: seen) xs

/-- JS `[...new Set(list)]`. -/
def jsUniq (l : List String) : List String := jsUniqAux [] l

/-- The concatenation `[...global, ...indonesia, ...startup]`. -/
def allTLDs : List String :=
  BUSINESS_TLDS_global ++ BUSINESS_TLDS_indonesia ++ BUSINESS_TLDS_startup

/-- `buildCandidateDomains` (`check_name_professional.js`, lines 300-307). -/
def buildCandidateDomains (name : String) : List String :=
  jsUniq ((jsUniq allTLDs).map fun tld => toDomainBase name ++ "." ++ tld)

/-! ## Social-username extraction (`check_name_professional.js`, lines 230-274)

`new URL(u)` is modelled for absolute `http(s)` URLs without userinfo or
percent-encoding: the hostname is the authority (lowercased, port stripped)
and the pathname runs from the first `/` to the first `?` or `#` (defaulting
to `/`).  A string that does not parse is `none` — the JS constructor throws
and the `catch` yields `{platform: null, username: null}`. -/
/-- Hostname and pathname of a parsed URL. -/
structure UrlParts where
  host : String
  pathname : String
deriving DecidableEq

/-- Model of `new URL(u)` (see the section comment). -/
def parseUrl (u : String) : Option UrlParts :=
  let l := u.toList
  let afterScheme : Option (List Char) :=
    if "https://".toList.isPrefixOf l then some (l.drop 8)
    else if "http://".toList.isPrefixOf l then some (l.drop 7)
    else none
  match afterScheme with
  | none => none
  | some rest =>
    let auth := rest.takeWhile fun c => !(c == '/' || c == '?' || c == '#')
    if auth.isEmpty then none
    else
      let host := (lowerList auth).takeWhile (· != ':')
      let after := rest.drop auth.length
      let path := after.takeWhile fun c => !(c == '?' || c == '#')
      let pathname := if path.isEmpty then ['/'] else path
      some ⟨String.mk host, String.mk pathname⟩

/-- JS `s.split(sep)` for a single-character separator: split at every
occurrence, keeping empty fields. -/
def splitEvery (sep : Char) : List Char → List (List Char)
  | [] => [[]]
  | c :: cs =>
    if c == sep then [] :: splitEvery sep cs
    else
      match splitEvery sep cs with
      | [] => [[c]]
      | f :: rest => (c :: f) :: rest

/-- `url.pathname.split('/').filter(Boolean)`. -/
def urlPathParts (pathname : String) : List String :=
  ((splitEvery '/' pathname.toList).map String.mk).filter (· ≠ "")

/-- JS indexing `l[i]` followed by `|| ""`: out-of-range gives the empty
string (`undefined` coalesced). -/
def jsAt (l : List String) (i : Nat) : String := l.getD i ""

/-- JS `a || b` on strings, where an absent (`undefined`) value is already
represented by `""`. -/
def jsOrStr (a b : String) : String := if a == "" then b else a

/-- `if (username.startsWith('@')) username = username.slice(1)`. -/
def stripAt (s : String) : String :=
  if jsStartsWith s "@" then String.mk (s.toList.drop 1) else s

/-- Extracted social platform and username (`null` as `none`). -/
structure SocialRef where
  platform : Option String
  username : Option String
deriving DecidableEq

/-- One entry of the `SOCIAL_PLATFORMS` table: a host matcher (the `hostRe`
regex), the platform name and the path index of the username. -/
structure PlatEntry where
  hostRe : String → Bool
  platform : String
  usernamePathIndex : Nat

/-- The regex `/(^|\.)base$/i` on an (already lowercased) hostname. -/
def hostAnchored (base host : String) : Bool :=
  host == base || jsEndsWith host ("." ++ base)

/-- The `SOCIAL_PLATFORMS` table (`check_name_professional.js`, lines 230-242). -/
def SOCIAL_PLATFORMS : List PlatEntry :=
  [ ⟨hostAnchored "instagram.com", "instagram", 1⟩,
    ⟨hostAnchored "tiktok.com", "tiktok", 1⟩,
    ⟨fun h => hostAnchored "twitter.com" h || hostAnchored "x.com" h, "twitter", 1⟩,
    ⟨hostAnchored "facebook.com", "facebook", 1⟩,
    ⟨hostAnchored "youtube.com", "youtube", 1⟩,
    ⟨hostAnchored "linktr.ee", "linktree", 1⟩,
    ⟨hostAnchored "msha.ke", "milkshake", 1⟩,
    ⟨hostAnchored "github.com", "github", 1⟩,
    ⟨hostAnchored "behance.net", "behance", 1⟩,
    ⟨hostAnchored "medium.com", "medium", 1⟩,
    ⟨hostAnchored "linkedin.com", "linkedin", 1⟩]

/-- The `for (const p of SOCIAL_PLATFORMS)` loop of `extractSocialUsername`,
with the `linkedin` entry skipped (`continue`) and the YouTube/Facebook
special cases applied inside the matching iteration. -/
def findSocialPlatform (host : String) (pathParts : List String) :
    List PlatEntry → SocialRef
  | [] => ⟨none, none⟩
  | p :: rest =>
    if p.platform == "linkedin" then findSocialPlatform host pathParts rest
    else if p.hostRe host then
      let u0 := jsAt pathParts p.usernamePathIndex
      let u1 := stripAt u0
      let u2 :=
        if jsEndsWith host "youtube.com" then
          let a := if jsAt pathParts 0 == "@" then jsOrStr (jsAt pathParts 1) u1 else u1
          if jsAt pathParts 0 == "channel" || jsAt pathParts 0 == "c" then
            jsOrStr (jsAt pathParts 1) a
          else a
        else u1
      let u3 := if jsEndsWith host "facebook.com" && jsIncludes u2 ".php" then "" else u2
      ⟨some p.platform, if u3 == "" then none else some u3⟩
    else findSocialPlatform host pathParts rest

/-- `extractSocialUsername` (`check_name_professional.js`, lines 244-274). -/
def extractSocialUsername (u : String) : SocialRef :=
  match parseUrl u with
  | none => ⟨none, none⟩
  | some up =>
    let host := up.host
    let pathParts := urlPathParts up.pathname
    if jsEndsWith host "linkedin.com" then
      let hd := jsAt pathParts 0
      let uidx := if hd ∈ [ "in", "company", "school", "showcase"] then 1 else 0
      let u1 := stripAt (jsAt pathParts uidx)
      ⟨some "linkedin", if u1 == "" then none else some u1⟩
    else findSocialPlatform host pathParts SOCIAL_PLATFORMS

/-! ## Match classifier (`check_name_professional.js`, lines 277-297) -/
/-- A word character for the JS `\b` boundary: `[A-Za-z0-9_]`. -/
def isWordChar (c : Char) : Bool := isAlphaA c || isDigitA c || c == '_'

/-- `w` occurs in `l` starting at a position preceded by start-of-string or a
word boundary and followed by a word boundary — the `(^|\b)w\b` pattern for a
keyword `w` made of word characters. -/
def occursAsWord (w l : List Char) : Bool :=
  (List.range (l.length + 1)).any fun i =>
    w.isPrefixOf (l.drop i) &&
    (i == 0 || !isWordChar (l.getD (i - 1) ' ')) &&
    !isWordChar (l.getD (i + w.length) ' ')

/-- The alternatives of the organization-title regex
`/(^|\b)(pt|cv|inc|ltd|llc|company|perusahaan|studio|ventures|labs)\b/i`. -/
def ORG_WORDS : List String :=
  [ "pt", "cv", "inc", "ltd", "llc", "company", "perusahaan", "studio", "ventures", "labs"]

/-- `orgTitle`: the organization regex tests the raw title, case-insensitively. -/
def hasOrgKeyword (title : String) : Bool :=
  ORG_WORDS.any fun w => occursAsWord w.toList (lowerList title.toList)

/-- The observation passed to `classifyMatch`: `{...dn, url: u, title}` —
only `url`, `title` and `sld` are read. -/
structure Obs where
  url : String
  title : Option String
  sld : Option String
deriving DecidableEq

/-- `classifyMatch`'s result `{type, score, social?}`. -/
structure MatchRes where
  type : String
  score : Nat
  social : Option SocialRef
deriving DecidableEq

/-- `classifyMatch` (`check_name_professional.js`, lines 277-297). -/
def classifyMatch (nameRaw : String) (result : Obs) : MatchRes :=
  let q := slugLettersDigitsHyphen nameRaw
  let titleSlug := slugLettersDigitsHyphen (result.title.getD "")
  let sldSlug := slugLettersDigitsHyphen (result.sld.getD "")
  if sldSlug != "" && sldSlug == q then ⟨"exact_domain", 100, none⟩
  else if sldSlug != "" && (jsIncludes sldSlug q || jsIncludes q sldSlug) then
    ⟨"domain_contains", 80, none⟩
  else
    let soc := extractSocialUsername result.url
    let orgTitle := hasOrgKeyword (result.title.getD "")
    let orgRes : MatchRes :=
      if titleSlug == q && orgTitle then ⟨"org_title_exact", 75, none⟩
      else if jsIncludes titleSlug q && orgTitle then ⟨"org_title_contains", 60, none⟩
      else ⟨"mention", 20, none⟩
    if jsTruthyStr soc.username then
      let userSlug := slugLettersDigitsHyphen (soc.username.getD "")
      if userSlug == q then ⟨"social_exact", 90, some soc⟩
      else if jsIncludes userSlug q || jsIncludes q userSlug then
        ⟨"social_contains", 70, some soc⟩
      else orgRes
    else orgRes

/-- A guarded-rule list evaluated first-match-wins. -/
def firstRuleMatch : List (Bool × MatchRes) → MatchRes → MatchRes
  | [], dflt => dflt
  | (c, r) :: rest, dflt => if c then r else firstRuleMatch rest dflt

/-- The six classifier rules in their precedence order, as guard/result
pairs; the default is `mention`. -/
def classifyRules (nameRaw : String) (result : Obs) : List (Bool × MatchRes) :=
  let q := slugLettersDigitsHyphen nameRaw
  let titleSlug := slugLettersDigitsHyphen (result.title.getD "")
  let sldSlug := slugLettersDigitsHyphen (result.sld.getD "")
  let soc := extractSocialUsername result.url
  let userSlug := slugLettersDigitsHyphen (soc.username.getD "")
  let orgTitle := hasOrgKeyword (result.title.getD "")
  [ (sldSlug != "" && sldSlug == q, ⟨"exact_domain", 100, none⟩),
    (sldSlug != "" && (jsIncludes sldSlug q || jsIncludes q sldSlug),
      ⟨"domain_contains", 80, none⟩),
    (jsTruthyStr soc.username && userSlug == q, ⟨"social_exact", 90, some soc⟩),
    (jsTruthyStr soc.username && (jsIncludes userSlug q || jsIncludes q userSlug),
      ⟨"social_contains", 70, some soc⟩),
    (titleSlug == q && orgTitle, ⟨"org_title_exact", 75, none⟩),
    (jsIncludes titleSlug q && orgTitle, ⟨"org_title_contains", 60, none⟩)]

/-! ## Certificate-transparency collector (`check_name_professional.js`,
lines 212-227)

`JSON.parse` is an external platform primitive; the collector is
parameterized by it (`parse`), with `none` standing for a thrown
`SyntaxError`.  The HTTP response is the pair of `res.ok`, `res.status` and
the body text. -/
/-- A parsed JSON value.  JS `undefined` from a missing property is collapsed
into `jnull`. -/
inductive Json where
  | jnull
  | jbool (b : Bool)
  | jnum (n : Int)
  | jstr (s : String)
  | jarr (items : List Json)
  | jobj (fields : List (String × Json))

/-- JS truthiness of a JSON value. -/
def jsTruthy : Json → Bool
  | .jnull => false
  | .jbool b => b
  | .jnum n => n != 0
  | .jstr s => s != ""
  | .jarr _ => true
  | .jobj _ => true

/-- JS property access `it.k` (missing or non-object yields `undefined`,
modelled as `jnull`). -/
def objField (j : Json) (k : String) : Json :=
  match j with
  | .jobj fs =>
    match fs.find? (fun f => f.1 == k) with
    | some f => f.2
    | none => .jnull
  | _ => .jnull

/-- JS `a || b` on JSON values. -/
def jsOrJson (a b : Json) : Json := if jsTruthy a then a else b

/-- One projected certificate entry. -/
structure CrtEntry where
  common_name : Json
  name_value : Json
  not_before : Json
  not_after : Json
  id : Json

/-- The per-entry projection `it => ({common_name, name_value, not_before,
not_after, id: it.min_cert_id || it.id || null})`. -/
def crtProject (it : Json) : CrtEntry :=
  ⟨objField it "common_name", objField it "name_value", objField it "not_before",
    objField it "not_after",
    jsOrJson (objField it "min_cert_id") (jsOrJson (objField it "id") .jnull)⟩

/-- The HTTP response seen by the collector. -/
structure FetchResp where
  ok : Bool
  status : Nat
  body : String

/-- The collector's result `{ok, entries, error}` (absent fields as
`[]`/`none`). -/
structure CrtResult where
  ok : Bool
  entries : List CrtEntry
  error : Option String

/-- JS `String.prototype.trim`. -/
def jsTrim (s : String) : String :=
  String.mk (trimEnd Char.isWhitespace (s.toList.dropWhile Char.isWhitespace))

/-- `checkCrtSh` (`check_name_professional.js`, lines 212-227), with the HTTP
transport already resolved into `res` and `JSON.parse` passed as `parse`. -/
def checkCrtSh (parse : String → Option Json) (res : FetchResp) : CrtResult :=
  if !res.ok then ⟨false, [], some ("HTTP " ++ toString res.status)⟩
  else if res.body == "" || jsToLowerStr (jsTrim res.body) == "no results found" then
    ⟨true, [], none⟩
  else
    match parse res.body with
    | none => ⟨true, [], none⟩
    | some j =>
      let arr := match j with | .jarr items => items | _ => []
      ⟨true, arr.map crtProject, none⟩

/-! ## Records and deduplication (`check_name_professional.js`,
lines 310-332, 370-375 and 403-413) -/
/-- WHOIS evidence `{ok, likelyAvailable}` (the raw `info`/`error` payloads
are not read by the aggregation logic and are omitted). -/
structure WhoisEv where
  ok : Bool
  likelyAvailable : Bool

/-- DNS evidence `{resolves}` (the address list is not read downstream). -/
structure DnsEv where
  resolves : Bool

/-- Certificate evidence `{ok, entries}`. -/
structure CrtEv where
  ok : Bool
  entries : List CrtEntry

/-- One pipeline record, as built by `processUrlForName`, the probe branch of
`findNameUsage` and the social-probe merge (`snippet` is presentation-only
and omitted). -/
structure Record where
  url : String
  domain : Option String
  hostname : Option String
  tld : Option String
  sld : Option String
  title : Option String
  match_type : String
  match_score : Nat
  social_platform : Option String
  social_username : Option String
  social_verified : Bool
  social_probe_status : Option String
  whois : Option WhoisEv
  dns : Option DnsEv
  crt : Option CrtEv
  origin : String

/-- The deduplication key (`check_name_professional.js`, lines 407-409):
`platform:username` lowercased when the match type starts with `social` and
both social fields are truthy, otherwise `(domain || hostname || url || "")`
lowercased. -/
def dedupKey (r : Record) : String :=
  if jsStartsWith r.match_type "social" && jsTruthyStr r.social_platform &&
      jsTruthyStr r.social_username then
    jsToLowerStr (r.social_platform.getD "" ++ ":" ++ r.social_username.getD "")
  else
    jsToLowerStr (jsOrStr (r.domain.getD "") (jsOrStr (r.hostname.getD "") (jsOrStr r.url "")))

/-- Insert keeping scores descending; equal scores keep their relative order.
Together with `sortByScoreDesc` this models the stable JS
`sort((a, b) => b.match_score - a.match_score)`. -/
def insertDesc (r : Record) : List Record → List Record
  | [] => [r]
  | x :: xs => if x.match_score ≤ r.match_score then r :: x :: xs else x :: insertDesc r xs

/-- `combined.sort((a, b) => b.match_score - a.match_score)`. -/
def sortByScoreDesc (l : List Record) : List Record := l.foldr insertDesc []

/-- The dedup loop (`check_name_professional.js`, lines 404-413): walk the
sorted records, skip empty or already-seen keys, keep the rest. -/
def dedupeAux (seen : List String) : List Record → List Record
  | [] => []
  | r :: rs =>
    if dedupKey r = "" ∨ dedupKey r ∈ seen then dedupeAux seen rs
    else r :: dedupeAux (dedupKey r :: seen) rs

/-- Sort by score descending, then deduplicate by key. -/
def dedupRecords (l : List Record) : List Record := dedupeAux [] (sortByScoreDesc l)

/-- A search-origin `domain_contains` record for `linkpulse.com`. -/
def sampleSearchRecord : Record :=
  ⟨"https://linkpulse.com/about", some "linkpulse.com", some "linkpulse.com",
    some "com", some "linkpulse", some "LinkPulse", "domain_contains", 80,
    none, none, false, none, none, none, none, "search"⟩

/-- A probe-origin `exact_domain` record for the same domain. -/
def sampleProbeRecord : Record :=
  ⟨"http://linkpulse.com", some "linkpulse.com", some "linkpulse.com",
    some "com", some "linkpulse", none, "exact_domain", 100,
    none, none, false, none, none, none, none, "probe"⟩

/-! ## Provenance calculator (`check_name_professional.js`, lines 497-514) -/
/-- `r.whois && r.whois.ok`. -/
def recWhoisOk (r : Record) : Bool :=
  match r.whois with
  | some w => w.ok
  | none => false

/-- `whoisOk ? !!r.whois.likelyAvailable : false`. -/
def recWhoisLikely (r : Record) : Bool :=
  if recWhoisOk r then
    match r.whois with
    | some w => w.likelyAvailable
    | none => false
  else false

/-- `r.dns && r.dns.resolves ? true : false`. -/
def recDnsResolves (r : Record) : Bool :=
  match r.dns with
  | some d => d.resolves
  | none => false

/-- `(r.crt && r.crt.ok && Array.isArray(r.crt.entries)) ? r.crt.entries.length
: 0` — in the model `entries` is always an array when `crt` is present. -/
def recCrtCount (r : Record) : Nat :=
  match r.crt with
  | some c => if c.ok then c.entries.length else 0
  | none => 0

/-- `computeUsageSources` (`check_name_professional.js`, lines 497-514): the
tags are pushed in a fixed order. -/
def computeUsageSources (r : Record) : List String :=
  (if recWhoisOk r && !recWhoisLikely r then [ "WHOIS"] else []) ++
  (if recDnsResolves r then [ "DNS"] else []) ++
  (if 0 < recCrtCount r then [ "crt.sh"] else []) ++
  (if r.match_type == "social_exact" || r.match_type == "social_contains" then
    [ "social"] else []) ++
  (if r.match_type == "org_title_exact" || r.match_type == "org_title_contains" then
    [ "org_title"] else []) ++
  (if r.match_type == "exact_domain" || r.match_type == "domain_contains" then
    [ "domain_present"] else []) ++
  (if r.origin == "search" then [ "search_hit"] else []) ++
  (if r.origin == "probe" then [ "probe_hit"] else [])

/-- A social-probe record (status not `taken` path sets
`match_type: "social_probe"`, origin `social_probe`). -/
def sampleSocialProbeRecord : Record :=
  ⟨"https://www.instagram.com/linkpulse/", none, none, none, none, none,
    "social_probe", 0, some "instagram", some "linkpulse", true,
    some "unknown", none, none, none, "social_probe"⟩

/-! ## Social-platform probes (`src/modules/social-probe.js`)

`fetchWithHeaders` resolves every transport outcome into a response object:
`status` (0 on network error), `isRedirect` (status in 300-399),
`redirectUrl`, and a body that reads either to a string or throws
(`body = none`).  Each checker is a pure decision table over that object. -/
/-- The resolved response object a checker inspects. -/
structure ProbeResp where
  status : Nat
  isRedirect : Bool
  redirectUrl : Option String
  body : Option String
deriving DecidableEq

/-- A checker's verdict `{exists, url, status, confidence, note?, error?}`
(JS `exists: true/false/null` as `Option Bool`). -/
structure ProbeOutcome where
  exists_ : Option Bool
  url : String
  status : String
  confidence : String
  note : Option String
  error : Option String
deriving DecidableEq

/-- Instagram not-found body phrases. -/
def instaNotFound (html : String) : Bool :=
  jsIncludes html "Sorry, this page isn\x27t available" ||
  jsIncludes html "The link you followed may be broken" ||
  jsIncludes html "Page Not Found"

/-- Instagram positive profile markers. -/
def instaProfile (u html : String) : Bool :=
  jsIncludes html ("\"username\":\"" ++ u ++ "\"") ||
  jsIncludes html "profilePage" ||
  jsIncludes html "ProfilePage"

/-- The probed Instagram profile URL. -/
def instaUrl (username : String) : String :=
  "https://www.instagram.com/" ++ stripAt username ++ "/"

/-- `checkInstagram` (`src/modules/social-probe.js`, lines 142-207). -/
def checkInstagram (username : String) (resp : ProbeResp) : ProbeOutcome :=
  let cleanUsername := stripAt username
  let url := instaUrl username
  if resp.status == 404 then ⟨some false, url, "available", "high", none, none⟩
  else if resp.status == 200 then
    match resp.body with
    | some html =>
      if instaNotFound html then
        ⟨some false, url, "available", "high", some "Page not found (verified)", none⟩
      else if instaProfile cleanUsername html then
        ⟨some true, url, "taken", "high", some "Profile verified", none⟩
      else ⟨none, url, "unknown", "none", some "Could not verify - check manually", none⟩
    | none =>
      ⟨none, url, "unknown", "none", some "Could not verify response - check manually", none⟩
  else if resp.status == 429 then
    ⟨none, url, "unknown", "none", some "Rate limited - check manually", none⟩
  else if resp.status == 403 then
    ⟨none, url, "unknown", "none", some "Blocked by Instagram - check manually", none⟩
  else if resp.isRedirect || resp.status == 302 || resp.status == 301 then
    ⟨none, url, "unknown", "none", some "Redirect detected - check manually", none⟩
  else if resp.status == 0 then
    ⟨none, url, "unknown", "none", some "Network error - check manually", none⟩
  else
    ⟨none, url, "unknown", "none",
      some ("HTTP " ++ toString resp.status ++ " - check manually"), none⟩

/-- YouTube not-found body phrases. -/
def ytNotFound (html : String) : Bool :=
  jsIncludes html "This channel doesn\x27t exist" ||
  jsIncludes html "This page isn\x27t available" ||
  jsIncludes html "Channel not found"

/-- YouTube positive channel markers. -/
def ytProfile (u html : String) : Bool :=
  jsIncludes html "\"channelId\"" ||
  jsIncludes html ("\"author\":\"" ++ u ++ "\"") ||
  jsIncludes html "ytInitialData"

/-- The probed YouTube channel URL. -/
def ytUrl (username : String) : String :=
  "https://www.youtube.com/@" ++ stripAt username

/-- `checkYouTube` (`src/modules/social-probe.js`, lines 338-398). -/
def checkYouTube (username : String) (resp : ProbeResp) : ProbeOutcome :=
  let cleanUsername := stripAt username
  let url := ytUrl username
  if resp.status == 404 then ⟨some false, url, "available", "high", none, none⟩
  else if resp.status == 200 then
    match resp.body with
    | some html =>
      if ytNotFound html then
        ⟨some false, url, "available", "high", some "Channel not found (verified)", none⟩
      else if ytProfile cleanUsername html then
        ⟨some true, url, "taken", "high", some "Channel verified", none⟩
      else ⟨none, url, "unknown", "none", some "Could not verify - check manually", none⟩
    | none =>
      ⟨none, url, "unknown", "none", some "Could not verify response - check manually", none⟩
  else if resp.status == 403 then
    ⟨none, url, "unknown", "none", some "Blocked by YouTube - check manually", none⟩
  else if resp.isRedirect || resp.status == 302 || resp.status == 301 then
    ⟨none, url, "unknown", "none", some "Redirect detected - check manually", none⟩
  else if resp.status == 0 then
    ⟨none, url, "unknown", "none", some "Network error - check manually", none⟩
  else
    ⟨none, url, "unknown", "none",
      some ("HTTP " ++ toString resp.status ++ " - check manually"), none⟩

/-- TikTok not-found body phrases. -/
def ttNotFound (html : String) : Bool :=
  jsIncludes html "Couldn\x27t find this account" ||
  jsIncludes html "User not found" ||
  jsIncludes html "This account cannot be found"

/-- TikTok positive profile markers. -/
def ttProfile (u html : String) : Bool :=
  jsIncludes html ("\"uniqueId\":\"" ++ u ++ "\"") ||
  jsIncludes html ("\"@" ++ u ++ "\"") ||
  jsIncludes html "UserPage"

/-- The probed TikTok profile URL. -/
def ttUrl (username : String) : String :=
  "https://www.tiktok.com/@" ++ stripAt username

/-- `checkTikTok` (`src/modules/social-probe.js`, lines 514-574). -/
def checkTikTok (username : String) (resp : ProbeResp) : ProbeOutcome :=
  let cleanUsername := stripAt username
  let url := ttUrl username
  if resp.status == 404 then ⟨some false, url, "available", "high", none, none⟩
  else if resp.status == 200 then
    match resp.body with
    | some html =>
      if ttNotFound html then
        ⟨some false, url, "available", "high", some "Account not found (verified)", none⟩
      else if ttProfile cleanUsername html then
        ⟨some true, url, "taken", "high", some "Profile verified", none⟩
      else ⟨none, url, "unknown", "none", some "Could not verify - check manually", none⟩
    | none =>
      ⟨none, url, "unknown", "none", some "Could not verify response - check manually", none⟩
  else if resp.status == 403 then
    ⟨none, url, "unknown", "none", some "Blocked by TikTok - check manually", none⟩
  else if resp.isRedirect || resp.status == 302 || resp.status == 301 then
    ⟨none, url, "unknown", "none", some "Redirect detected - check manually", none⟩
  else if resp.status == 0 then
    ⟨none, url, "unknown", "none", some "Network error - check manually", none⟩
  else
    ⟨none, url, "unknown", "none",
      some ("HTTP " ++ toString resp.status ++ " - check manually"), none⟩

/-- LinkedIn not-found body phrases. -/
def liNotFound (html : String) : Bool :=
  jsIncludes html "Page not found" ||
  jsIncludes html "This page doesn\x27t exist" ||
  jsIncludes html "Company not found"

/-- LinkedIn positive company-page markers. -/
def liProfile (html : String) : Bool :=
  jsIncludes html "\"companyPageUrl\"" ||
  jsIncludes html "\"organizationId\"" ||
  jsIncludes html "companyInfo"

/-- The probed LinkedIn company URL. -/
def liUrl (username : String) : String :=
  "https://www.linkedin.com/company/" ++ stripAt username

/-- `checkLinkedIn` (`src/modules/social-probe.js`, lines 580-646). -/
def checkLinkedIn (username : String) (resp : ProbeResp) : ProbeOutcome :=
  let url := liUrl username
  if resp.status == 404 then ⟨some false, url, "available", "high", none, none⟩
  else if resp.status == 200 then
    match resp.body with
    | some html =>
      if liNotFound html then
        ⟨some false, url, "available", "high", some "Page not found (verified)", none⟩
      else if liProfile html then
        ⟨some true, url, "taken", "high", some "Company page verified", none⟩
      else ⟨none, url, "unknown", "none", some "Could not verify - check manually", none⟩
    | none =>
      ⟨none, url, "unknown", "none", some "Could not verify response - check manually", none⟩
  else if resp.status == 999 then
    ⟨none, url, "unknown", "none", some "LinkedIn rate limit - check manually", none⟩
  else if resp.status == 403 then
    ⟨none, url, "unknown", "none", some "Blocked by LinkedIn - check manually", none⟩
  else if resp.isRedirect || resp.status == 302 || resp.status == 301 then
    ⟨none, url, "unknown", "none", some "Redirect/requires login - check manually", none⟩
  else if resp.status == 0 then
    ⟨none, url, "unknown", "none", some "Network error - check manually", none⟩
  else
    ⟨none, url, "unknown", "none",
      some ("HTTP " ++ toString resp.status ++ " - check manually"), none⟩

/-- GitHub positive profile markers. -/
def ghProfile (u html : String) : Bool :=
  jsIncludes html ("\"login\":\"" ++ u ++ "\"") ||
  jsIncludes html "profileName" ||
  jsIncludes html "user-profile"

/-- The probed GitHub profile URL. -/
def ghUrl (username : String) : String := "https://github.com/" ++ stripAt username

/-- `checkGitHub` (`src/modules/social-probe.js`, lines 653-716).  Note the
200 branch: when the body carries neither a not-found marker nor a positive
marker — or cannot be read at all — the checker still answers
`taken`/`high` ("GitHub 200 is usually reliable even without body parsing"). -/
def checkGitHub (username : String) (resp : ProbeResp) : ProbeOutcome :=
  let cleanUsername := stripAt username
  let url := ghUrl username
  if resp.status == 404 then ⟨some false, url, "available", "high", none, none⟩
  else if resp.status == 200 then
    match resp.body with
    | some html =>
      if jsIncludes html "Not Found" || jsIncludes html "404" then
        ⟨some false, url, "available", "high", some "Page not found (verified)", none⟩
      else if ghProfile cleanUsername html then
        ⟨some true, url, "taken", "high", some "Profile verified", none⟩
      else ⟨some true, url, "taken", "high", none, none⟩
    | none => ⟨some true, url, "taken", "high", none, none⟩
  else if resp.status == 429 then
    ⟨none, url, "unknown", "none", some "Rate limited - check manually", none⟩
  else if resp.status == 403 then
    ⟨none, url, "unknown", "none", some "Blocked by GitHub - check manually", none⟩
  else if resp.isRedirect || resp.status == 302 || resp.status == 301 then
    ⟨none, url, "unknown", "none", some "Redirect detected - check manually", none⟩
  else if resp.status == 0 then
    ⟨none, url, "unknown", "none", some "Network error - check manually", none⟩
  else
    ⟨none, url, "unknown", "none",
      some ("HTTP " ++ toString resp.status ++ " - check manually"), none⟩

/-! ## SEO-friendliness and memorability (`src/utils/validators.js`,
lines 95-220) -/
/-- `name.toLowerCase().replace(/[^a-z0-9-]/g, "")`. -/
def seoClean (name : String) : List Char := (lowerList name.toList).filter isDomainChar

/-- Length factor: 15 points for 6-15 characters, 10 for 4-20, else 5. -/
def seoLengthPts (n : Nat) : Nat :=
  if 6 ≤ n ∧ n ≤ 15 then 15
  else if 4 ≤ n ∧ n ≤ 20 then 10
  else 5

/-- Character-composition factor: `/^[a-z]+$/` 20, `/^[a-z0-9]+$/` 15,
contains a hyphen 10, otherwise no factor is added. -/
def seoCharPts (l : List Char) : Nat :=
  if l ≠ [] ∧ l.all isLowerA then 20
  else if l ≠ [] ∧ l.all (fun c => isLowerA c || isDigitA c) then 15
  else if '-' ∈ l then 10
  else 0

/-- `[aeiou]`. -/
def isVowel (c : Char) : Bool := c == 'a' || c == 'e' || c == 'i' || c == 'o' || c == 'u'

/-- `[bcdfghjklmnpqrstvwxyz]`: a lowercase letter that is not a vowel. -/
def isConsonant (c : Char) : Bool := isLowerA c && !isVowel c

/-- Vowel-ratio memorability factor: 25 points when
`0.3 ≤ vowels/(vowels+consonants) ≤ 0.5` (stated over integers), else 15; the
`0/0 = NaN` case fails the comparison and lands in the else branch. -/
def seoMemPts (l : List Char) : Nat :=
  let v := l.countP isVowel
  let c := l.countP isConsonant
  if 0 < v + c ∧ 3 * (v + c) ≤ 10 * v ∧ 2 * v ≤ v + c then 25 else 15

/-- `/([bcdfghjklmnpqrstvwxyz]{4,})/`: four consecutive consonants occur. -/
def hasConsRun (l : List Char) : Bool :=
  (List.range l.length).any fun i =>
    decide (((l.drop i).take 4).length = 4) && ((l.drop i).take 4).all isConsonant

/-- Pronounceability factor: 20 without a hard consonant cluster, else 10. -/
def seoPronPts (l : List Char) : Nat := if hasConsRun l then 10 else 20

/-- The overused business terms checked by the uniqueness factor. -/
def COMMON_WORDS : List String :=
  [ "tech", "digital", "solutions", "group", "international", "global", "indo", "nusa"]

/-- Uniqueness factor: 20 without a common word, else 10. -/
def seoUniqPts (l : List Char) : Nat :=
  if COMMON_WORDS.any (fun w => listIsInfix w.toList l) then 10 else 20

/-- `checkSEOFriendliness(name).total` over a max score of 100. -/
def seoTotal (name : String) : Nat :=
  seoLengthPts (seoClean name).length + seoCharPts (seoClean name) +
  seoMemPts (seoClean name) + seoPronPts (seoClean name) + seoUniqPts (seoClean name)

/-- `percentage = Math.round((total / maxScore) * 100)` with `maxScore = 100`,
i.e. the total itself. -/
def seoPercentage (name : String) : Nat := seoTotal name

/-- `name.toLowerCase().replace(/[^a-z]/g, "")`. -/
def memClean (name : String) : List Char := (lowerList name.toList).filter isLowerA

/-- Memorability length factor: 30 up to 8 letters, 20 up to 12, else 10. -/
def memLengthPts (n : Nat) : Nat :=
  if n ≤ 8 then 30
  else if n ≤ 12 then 20
  else 10

/-- `/(.{2,})\1/`: some substring of length at least 2 is immediately
repeated. -/
def hasRepetition (l : List Char) : Bool :=
  (List.range (l.length + 1)).any fun i =>
    (List.range (l.length + 1)).any fun len =>
      decide (2 ≤ len) && decide (i + 2 * len ≤ l.length) &&
      ((l.drop i).take len == (l.drop (i + len)).take len)

/-- Repetition bonus: 20 when a repeated pattern exists. -/
def memRepPts (l : List Char) : Nat := if hasRepetition l then 20 else 0

/-- The number of matches of `/[aeiou]+[^aeiou]*/g`: one per maximal vowel
run.  The flag tracks being inside a vowel run. -/
def countVowelRuns : List Char → Bool → Nat
  | [], _ => 0
  | c :: cs, inRun =>
    if isVowel c then
      if inRun then countVowelRuns cs true else 1 + countVowelRuns cs true
    else countVowelRuns cs false

/-- Rhythm bonus: 25 when the syllable count is 2 or 3. -/
def memRhythmPts (l : List Char) : Nat :=
  if 2 ≤ countVowelRuns l false ∧ countVowelRuns l false ≤ 3 then 25 else 0

/-- JS `s.split(/[sep]+/)`: fields separated by maximal separator runs, with
a leading/trailing empty field when the string starts/ends with a separator.
The `Option` state is the current field (reversed) or `none` inside a run. -/
def splitRunsAux (p : Char → Bool) : List Char → Option (List Char) → List (List Char)
  | [], some cur => [cur.reverse]
  | [], none => [[]]
  | c :: cs, some cur =>
    if p c then cur.reverse :: splitRunsAux p cs none
    else splitRunsAux p cs (some (c :: cur))
  | c :: cs, none =>
    if p c then splitRunsAux p cs none
    else splitRunsAux p cs (some [c])

/-- `name.split(/[\s-]+/)`. -/
def jsSplitRuns (p : Char → Bool) (s : String) : List String :=
  (splitRunsAux p s.toList (some [])).map String.mk

/-- The class `[\s-]`. -/
def isSpaceOrHyphen (c : Char) : Bool := c.isWhitespace || c == '-'

/-- Alliteration bonus: 25 when the name has at least two words and every
word's first letter (lowercased; `""` for an empty word) matches the first
word's. -/
def memAllitPts (name : String) : Nat :=
  let words := jsSplitRuns isSpaceOrHyphen name
  if 2 ≤ words.length then
    let firstLetters := words.map fun w => lowerList (w.toList.take 1)
    if firstLetters.all (fun l => l == firstLetters.headD []) then 25 else 0
  else 0

/-- `checkMemorability(name).total`. -/
def memTotal (name : String) : Nat :=
  memLengthPts (memClean name).length + memRepPts (memClean name) +
  memRhythmPts (memClean name) + memAllitPts name

/-- `percentage = Math.min(100, total)`. -/
def memPercentage (name : String) : Nat := min 100 (memTotal name)

/-! ## Brand score (`src/utils/scoring.js`) -/
/-- `dnsTaken = r.dns && r.dns.resolves`. -/
def scDnsTaken (r : Record) : Bool :=
  match r.dns with
  | some d => d.resolves
  | none => false

/-- `crtTaken = r.crt && r.crt.ok && r.crt.entries && r.crt.entries.length > 0`
(arrays are always truthy). -/
def scCrtTaken (r : Record) : Bool :=
  match r.crt with
  | some c => c.ok && decide (0 < c.entries.length)
  | none => false

/-- `whoisTaken = r.whois && r.whois.ok && !r.whois.likelyAvailable`. -/
def scWhoisTaken (r : Record) : Bool :=
  match r.whois with
  | some w => w.ok && !w.likelyAvailable
  | none => false

/-- Any evidence that the domain of this record is taken. -/
def scDomainTaken (r : Record) : Bool := scDnsTaken r || scCrtTaken r || scWhoisTaken r

/-- `results.filter(r => r.match_type.includes("domain"))`. -/
def domainResultsOf (results : List Record) : List Record :=
  results.filter fun r => jsIncludes r.match_type "domain"

/-- The critical TLD subset of `calculateDomainScore`. -/
def criticalTLDs : List String := [ "com", "co.id", "id", "io"]

/-- A record for `*.tld` with taken-evidence exists among the domain results. -/
def tldFoundTaken (results : List Record) (tld : String) : Bool :=
  (domainResultsOf results).any fun r =>
    match r.domain with
    | some d => jsEndsWith d ("." ++ tld) && scDomainTaken r
    | none => false

/-- `availableCritical.length`: critical TLDs with no taken-evidence. -/
def availableCriticalCount (results : List Record) : Nat :=
  criticalTLDs.countP fun tld => !tldFoundTaken results tld

/-- `calculateDomainScore(results).score`: buckets at 100%/75%/50%/>0/0 of
the 4 critical TLDs (so at counts 4/3/2/1/0). -/
def domainScoreVal (results : List Record) : Nat :=
  if availableCriticalCount results = 4 then 100
  else if 3 ≤ availableCriticalCount results then 80
  else if 2 ≤ availableCriticalCount results then 60
  else if 0 < availableCriticalCount results then 40
  else 20

/-- The critical platform subset of `calculateSocialScore`. -/
def criticalPlatforms : List String := [ "instagram", "facebook", "linkedin", "twitter"]

/-- `results.filter(r => r.social_platform || r.match_type.includes("social"))`. -/
def socialResultsOf (results : List Record) : List Record :=
  results.filter fun r => jsTruthyStr r.social_platform || jsIncludes r.match_type "social"

/-- `platformStatus[platform] === "available"`: a verified probe that is not
`taken`, or no record for this platform at all. -/
def platformAvailable (results : List Record) (platform : String) : Bool :=
  match (socialResultsOf results).find? (fun r => r.social_platform == some platform) with
  | some found =>
    if found.social_verified then !(found.social_probe_status == some "taken")
    else false
  | none => true

/-- `calculateSocialScore(results).score =
Math.round((availableCount / 4) * 100)` — an exact multiple of 25. -/
def socialScoreVal (results : List Record) : Nat :=
  (criticalPlatforms.countP fun p => platformAvailable results p) * 100 / 4

/-- `results.filter(r => r.match_type.includes("exact")).length`. -/
def exactCount (results : List Record) : Nat :=
  results.countP fun r => jsIncludes r.match_type "exact"

/-- `results.filter(r => r.match_type.includes("org_title")).length`. -/
def orgCount (results : List Record) : Nat :=
  results.countP fun r => jsIncludes r.match_type "org_title"

/-- `calculateTrademarkRisk(results).score` (higher is lower risk). -/
def trademarkScoreVal (results : List Record) : Nat :=
  if exactCount results = 0 ∧ orgCount results = 0 then 100
  else if exactCount results = 0 ∧ orgCount results ≤ 2 then 80
  else if exactCount results ≤ 2 then 60
  else if exactCount results ≤ 5 then 40
  else 20

/-- `Math.round` for the nonnegative quantities of the scorer. -/
def jsRound (x : ℚ) : ℤ := ⌊x + 1 / 2⌋

/-- The grade thresholds (inclusive lower bounds at 90/80/70/60/50). -/
def gradeOf (overall : ℤ) : String :=
  if 90 ≤ overall then "A+ (Excellent)"
  else if 80 ≤ overall then "A (Very Good)"
  else if 70 ≤ overall then "B (Good)"
  else if 60 ≤ overall then "C (Fair)"
  else if 50 ≤ overall then "D (Poor)"
  else "F (Not Recommended)"

/-- The brand score: overall, grade and the five weighted breakdown entries
(weights 30/25/20/15/10; the textual details/recommendations are
presentation-only and omitted). -/
structure BrandScore where
  overall : ℤ
  grade : String
  domainWeighted : ℚ
  socialWeighted : ℚ
  trademarkWeighted : ℚ
  seoWeighted : ℚ
  memorabilityWeighted : ℚ

/-- `calculateBrandScore` (`src/utils/scoring.js`, lines 12-86). -/
def calculateBrandScore (name : String) (results : List Record) : BrandScore :=
  let dW : ℚ := (domainScoreVal results * 30 : ℚ) / 100
  let sW : ℚ := (socialScoreVal results * 25 : ℚ) / 100
  let tW : ℚ := (trademarkScoreVal results * 20 : ℚ) / 100
  let seoW : ℚ := (seoPercentage name * 15 : ℚ) / 100
  let mW : ℚ := (memPercentage name * 10 : ℚ) / 100
  let overall := jsRound (dW + sW + tW + seoW + mW)
  ⟨overall, gradeOf overall, dW, sW, tW, seoW, mW⟩

/-! ## Properties and claim theorems -/

theorem headSafe_nil (p : Char → Bool) : HeadSafe p [] := by
  intro c hc
  simp [HeadSafe] at hc

theorem mem_collapseRuns {p : Char → Bool} {rep : Char} {b : Bool} {l : List Char}
    {c : Char} (h : c ∈ collapseRuns p rep b l) : c = rep ∨ (c ∈ l ∧ p c = false) := by
  induction l generalizing b with
  | nil => simp [collapseRuns] at h
  | cons x xs ih =>
    by_cases hx : p x
    · cases b with
      | true =>
        simp only [collapseRuns, hx, if_true] at h
        rcases ih h with h' | ⟨hm, hp⟩
        · exact Or.inl h'
        · exact Or.inr ⟨List.mem_cons_of_mem _ hm, hp⟩
      | false =>
        simp only [collapseRuns, hx, if_true] at h
        rcases List.mem_cons.mp h with rfl | h'
        · exact Or.inl rfl
        · rcases ih h' with h'' | ⟨hm, hp⟩
          · exact Or.inl h''
          · exact Or.inr ⟨List.mem_cons_of_mem _ hm, hp⟩
    · simp only [collapseRuns, hx, if_false] at h
      rcases List.mem_cons.mp h with rfl | h'
      · exact Or.inr ⟨List.mem_cons_self _ _, by simpa using hx⟩
      · rcases ih h' with h'' | ⟨hm, hp⟩
        · exact Or.inl h''
        · exact Or.inr ⟨List.mem_cons_of_mem _ hm, hp⟩

theorem headSafe_collapseRuns_true {p : Char → Bool} {rep : Char} {l : List Char} :
    HeadSafe p (collapseRuns p rep true l) := by
  induction l with
  | nil => exact headSafe_nil p
  | cons x xs ih =>
    cases hx : p x with
    | true => simpa only [collapseRuns, hx, if_true] using ih
    | false =>
      intro c hc
      simp only [collapseRuns, hx, Bool.false_eq_true, if_false, List.head?_cons,
        Option.mem_def, Option.some.injEq] at hc
      subst hc
      exact hx

theorem noRun_cons_of_headSafe {p : Char → Bool} {a : Char} {t : List Char}
    (ht : NoRun p t) (hh : HeadSafe p t) : NoRun p (a :: t) := by
  cases t with
  | nil => simp [NoRun]
  | cons b bs =>
    refine List.chain'_cons.mpr ⟨?_, ht⟩
    intro ⟨_, hb⟩
    have := hh b (by simp)
    simp [hb] at this

theorem noRun_cons_left {p : Char → Bool} {a : Char} {t : List Char}
    (ha : p a = false) (ht : NoRun p t) : NoRun p (a :: t) := by
  cases t with
  | nil => simp [NoRun]
  | cons b bs =>
    refine List.chain'_cons.mpr ⟨?_, ht⟩
    intro ⟨ha', _⟩
    simp [ha] at ha'

theorem noRun_collapseRuns (p : Char → Bool) (rep : Char) (b : Bool) (l : List Char) :
    NoRun p (collapseRuns p rep b l) := by
  induction l generalizing b with
  | nil => simp [collapseRuns, NoRun]
  | cons x xs ih =>
    by_cases hx : p x
    · cases b with
      | true => simpa only [collapseRuns, hx, if_true] using ih true
      | false =>
        simp only [collapseRuns, hx, if_true]
        exact noRun_cons_of_headSafe (ih true) headSafe_collapseRuns_true
    · simp only [collapseRuns, hx, if_false]
      exact noRun_cons_left (by simpa using hx) (ih false)

theorem collapseRuns_eq_self_of_none {p : Char → Bool} {rep : Char} {l : List Char}
    (h : ∀ c ∈ l, p c = false) (b : Bool) : collapseRuns p rep b l = l := by
  induction l generalizing b with
  | nil => rfl
  | cons x xs ih =>
    have hx : p x = false := h x (List.mem_cons_self _ _)
    simp only [collapseRuns, hx, Bool.false_eq_true, if_false, List.cons.injEq, true_and]
    exact ih (fun c hc => h c (List.mem_cons_of_mem _ hc)) false

theorem collapseRuns_eq_self {p : Char → Bool} {rep : Char} {l : List Char}
    (hrep : ∀ c, p c = true → c = rep) (hnr : NoRun p l) :
    collapseRuns p rep false l = l ∧ (HeadSafe p l → collapseRuns p rep true l = l) := by
  induction l with
  | nil => exact ⟨rfl, fun _ => rfl⟩
  | cons x xs ih =>
    have htail : NoRun p xs := by
      cases xs with
      | nil => simp [NoRun]
      | cons y ys => exact (List.chain'_cons.mp hnr).2
    by_cases hx : p x
    · have hxr : x = rep := hrep x hx
      subst hxr
      have hhs : HeadSafe p xs := by
        intro c hc
        cases xs with
        | nil => simp at hc
        | cons y ys =>
          simp only [List.head?_cons, Option.mem_def, Option.some.injEq] at hc
          subst hc
          have := (List.chain'_cons.mp hnr).1
          by_contra hpc
          exact this ⟨hx, by simpa using hpc⟩
      have h2 := (ih htail).2 hhs
      refine ⟨?_, ?_⟩
      · simp only [collapseRuns, hx, if_true, Bool.false_eq_true, if_false, h2]
      · intro hh
        have := hh x (by simp)
        simp [hx] at this
    · have hx' : p x = false := by simpa using hx
      have h1 := (ih htail).1
      refine ⟨?_, fun _ => ?_⟩ <;>
        simp only [collapseRuns, hx', Bool.false_eq_true, if_false, h1]

theorem dropWhile_suffix' (p : Char → Bool) (l : List Char) :
    l.dropWhile p <:+ l :=
  List.dropWhile_suffix p

theorem headSafe_dropWhile (p : Char → Bool) (l : List Char) :
    HeadSafe p (l.dropWhile p) := by
  induction l with
  | nil => exact headSafe_nil p
  | cons x xs ih =>
    cases hx : p x with
    | true => simpa [List.dropWhile_cons, hx] using ih
    | false =>
      intro c hc
      simp only [List.dropWhile_cons, hx, Bool.false_eq_true, if_false, List.head?_cons,
        Option.mem_def, Option.some.injEq] at hc
      subst hc
      exact hx

theorem dropWhile_eq_self_of_headSafe {p : Char → Bool} {l : List Char}
    (h : HeadSafe p l) : l.dropWhile p = l := by
  cases l with
  | nil => rfl
  | cons x xs =>
    have := h x (by simp)
    simp [List.dropWhile_cons, this]

theorem noRun_dropWhile {p q : Char → Bool} {l : List Char} (h : NoRun q l) :
    NoRun q (l.dropWhile p) :=
  List.Chain'.suffix h (dropWhile_suffix' p l)

theorem mem_dropWhile {p : Char → Bool} {l : List Char} {c : Char}
    (h : c ∈ l.dropWhile p) : c ∈ l :=
  (dropWhile_suffix' p l).subset h

/-! `trimEnd` facts. -/
theorem mem_trimEnd {p : Char → Bool} {l : List Char} {c : Char}
    (h : c ∈ trimEnd p l) : c ∈ l := by
  simp only [trimEnd, List.mem_reverse] at h
  exact List.mem_reverse.mp (mem_dropWhile h)

theorem trimEnd_prefix (p : Char → Bool) (l : List Char) : trimEnd p l <+: l := by
  have h := dropWhile_suffix' p l.reverse
  rcases h with ⟨t, ht⟩
  refine ⟨t.reverse, ?_⟩
  have := congrArg List.reverse ht
  simpa [trimEnd] using this

theorem lastSafe_trimEnd (p : Char → Bool) (l : List Char) :
    ∀ c ∈ (trimEnd p l).getLast?, p c = false := by
  intro c hc
  have : (trimEnd p l).getLast? = (l.reverse.dropWhile p).head? := by
    simp [trimEnd]
  rw [this] at hc
  exact headSafe_dropWhile p l.reverse c hc

theorem headSafe_trimEnd {p q : Char → Bool} {l : List Char}
    (h : HeadSafe q l) : HeadSafe q (trimEnd p l) := by
  intro c hc
  rcases trimEnd_prefix p l with ⟨t, ht⟩
  cases hte : trimEnd p l with
  | nil => simp [hte] at hc
  | cons x xs =>
    rw [hte] at hc
    simp only [List.head?_cons, Option.mem_def, Option.some.injEq] at hc
    subst hc
    apply h
    rw [← ht, hte]
    simp

theorem noRun_trimEnd {p q : Char → Bool} {l : List Char} (h : NoRun q l) :
    NoRun q (trimEnd p l) := by
  have hrev : NoRun q l.reverse :=
    List.chain'_reverse.mpr (h.imp fun a b hab h' => hab ⟨h'.2, h'.1⟩)
  have hdw : NoRun q (l.reverse.dropWhile p) := noRun_dropWhile hrev
  have : NoRun q (l.reverse.dropWhile p).reverse :=
    List.chain'_reverse.mpr (hdw.imp fun a b hab h' => hab ⟨h'.2, h'.1⟩)
  simpa [NoRun, trimEnd] using this

theorem trimEnd_eq_self_of_lastSafe {p : Char → Bool} {l : List Char}
    (h : ∀ c ∈ l.getLast?, p c = false) : trimEnd p l = l := by
  have hh : HeadSafe p l.reverse := by
    intro c hc
    rw [List.head?_reverse] at hc
    exact h c hc
  simp [trimEnd, dropWhile_eq_self_of_headSafe hh]

/-! ## `toDomainBase`: DNS-label-safety and idempotence (claim C6) -/
theorem jsToLower_eq_self_of_isDomainChar {c : Char} (h : isDomainChar c = true) :
    jsToLower c = c := by
  have hup : isUpperA c = false := by
    by_contra hb
    have hb' : 65 ≤ c.toNat ∧ c.toNat ≤ 90 := by
      simpa [isUpperA] using hb
    simp only [isDomainChar, Bool.or_eq_true, isLowerA, isDigitA, Bool.and_eq_true,
      decide_eq_true_eq, beq_iff_eq] at h
    rcases h with (h | h) | h
    · omega
    · omega
    · subst h
      exact absurd hb' (by decide)
  simp [jsToLower, hup]

theorem isWsU_eq_false_of_isDomainChar {c : Char} (h : isDomainChar c = true) :
    isWsU c = false := by
  by_contra hne
  have hw : isWsU c = true := by simpa using hne
  simp only [isWsU, Char.isWhitespace, Bool.or_eq_true, decide_eq_true_eq,
    beq_iff_eq] at hw
  rcases hw with (((rfl | rfl) | rfl) | rfl) | rfl <;> exact absurd h (by decide)

theorem map_jsToLower_eq_self {l : List Char} (h : ∀ c ∈ l, isDomainChar c = true) :
    lowerList l = l := by
  induction l with
  | nil => rfl
  | cons x xs ih =>
    simp only [lowerList, List.map_cons, List.cons.injEq]
    exact ⟨jsToLower_eq_self_of_isDomainChar (h x (List.mem_cons_self _ _)),
      ih fun c hc => h c (List.mem_cons_of_mem _ hc)⟩

theorem toDomainBaseList_chars {l : List Char} {c : Char}
    (h : c ∈ toDomainBaseList l) : isDomainChar c = true := by
  have h1 := mem_dropWhile (mem_trimEnd h)
  rcases mem_collapseRuns h1 with rfl | ⟨hm, _⟩
  · decide
  · exact (List.mem_filter.mp hm).2

theorem toDomainBaseList_noRun (l : List Char) :
    NoRun (· == '-') (toDomainBaseList l) :=
  noRun_trimEnd (noRun_dropWhile (noRun_collapseRuns _ '-' false _))

theorem toDomainBaseList_headSafe (l : List Char) :
    HeadSafe (· == '-') (toDomainBaseList l) :=
  headSafe_trimEnd (headSafe_dropWhile _ _)

theorem toDomainBaseList_lastSafe (l : List Char) :
    ∀ c ∈ (toDomainBaseList l).getLast?, (c == '-') = false :=
  lastSafe_trimEnd _ _

theorem toDomainBaseList_idem (l : List Char) :
    toDomainBaseList (toDomainBaseList l) = toDomainBaseList l := by
  have hchars := fun c hc => toDomainBaseList_chars (l := l) (c := c) hc
  have h1 : lowerList (toDomainBaseList l) = toDomainBaseList l :=
    map_jsToLower_eq_self hchars
  have h2 : collapseRuns isWsU '-' false (toDomainBaseList l) = toDomainBaseList l :=
    collapseRuns_eq_self_of_none
      (fun c hc => isWsU_eq_false_of_isDomainChar (hchars c hc)) false
  have h3 : (toDomainBaseList l).filter isDomainChar = toDomainBaseList l :=
    List.filter_eq_self.mpr hchars
  have h4 : collapseRuns (· == '-') '-' false (toDomainBaseList l) = toDomainBaseList l :=
    (collapseRuns_eq_self (fun c hc => by simpa using hc) (toDomainBaseList_noRun l)).1
  have h5 : (toDomainBaseList l).dropWhile (· == '-') = toDomainBaseList l :=
    dropWhile_eq_self_of_headSafe (toDomainBaseList_headSafe l)
  have h6 : trimEnd (· == '-') (toDomainBaseList l) = toDomainBaseList l :=
    trimEnd_eq_self_of_lastSafe (toDomainBaseList_lastSafe l)
  show trimEnd _ (List.dropWhile _ (collapseRuns _ _ false
    ((collapseRuns isWsU '-' false (lowerList (toDomainBaseList l))).filter isDomainChar)))
    = toDomainBaseList l
  rw [h1, h2, h3, h4, h5, h6]

theorem headSafe_beq_false {l : List Char} (h : HeadSafe (· == '-') l) :
    (l.head? == some '-') = false := by
  cases hh : l.head? with
  | none => rfl
  | some c =>
    have := h c (by simp [hh])
    simpa using this

theorem lastSafe_beq_false {l : List Char} (h : ∀ c ∈ l.getLast?, (c == '-') = false) :
    (l.getLast? == some '-') = false := by
  cases hh : l.getLast? with
  | none => rfl
  | some c =>
    have := h c (by simp [hh])
    simpa using this

/-- C6: `domainBase` is idempotent — `domainBase(domainBase(s)) = domainBase(s)` —
and its output is DNS-label-safe: every character matches `[a-z0-9-]` and it has
no leading or trailing hyphen. -/
theorem claim_C6 (s : String) :
    toDomainBase (toDomainBase s) = toDomainBase s ∧
    (toDomainBase s).toList.all isDomainChar = true ∧
    ((toDomainBase s).toList.head? == some '-') = false ∧
    ((toDomainBase s).toList.getLast? == some '-') = false := by
  refine ⟨?_, ?_, ?_, ?_⟩
  · show String.mk (toDomainBaseList (toDomainBaseList s.toList)) =
      String.mk (toDomainBaseList s.toList)
    rw [toDomainBaseList_idem]
  · exact List.all_eq_true.mpr fun c hc => toDomainBaseList_chars hc
  · exact headSafe_beq_false (toDomainBaseList_headSafe s.toList)
  · exact lastSafe_beq_false (toDomainBaseList_lastSafe s.toList)

theorem mem_jsUniqAux {seen l : List String} {x : String}
    (h : x ∈ jsUniqAux seen l) : x ∈ l ∧ x ∉ seen := by
  induction l generalizing seen with
  | nil => simp [jsUniqAux] at h
  | cons y ys ih =>
    by_cases hy : y ∈ seen
    · simp only [jsUniqAux, hy, if_true] at h
      have := ih h
      exact ⟨List.mem_cons_of_mem _ this.1, this.2⟩
    · simp only [jsUniqAux, hy, if_false] at h
      rcases List.mem_cons.mp h with rfl | h'
      · exact ⟨List.mem_cons_self _ _, hy⟩
      · have := ih h'
        refine ⟨List.mem_cons_of_mem _ this.1, fun hx => this.2 (List.mem_cons_of_mem _ hx)⟩

theorem nodup_jsUniqAux (seen l : List String) : (jsUniqAux seen l).Nodup := by
  induction l generalizing seen with
  | nil => simp [jsUniqAux]
  | cons y ys ih =>
    by_cases hy : y ∈ seen
    · simpa only [jsUniqAux, hy, if_true] using ih seen
    · simp only [jsUniqAux, hy, if_false, List.nodup_cons]
      refine ⟨fun hmem => ?_, ih (y :: seen)⟩
      exact (mem_jsUniqAux hmem).2 (List.mem_cons_self _ _)

theorem nodup_jsUniq (l : List String) : (jsUniq l).Nodup := nodup_jsUniqAux [] l

theorem mem_jsUniq {l : List String} {x : String} (h : x ∈ jsUniq l) : x ∈ l :=
  (mem_jsUniqAux h).1

/-- C5, counterexample: a name that normalizes to the empty base is NOT
skipped by `buildCandidateDomains` in `check_name_professional.js` — the
candidate list then contains strings such as `".com"` with an empty label. -/
theorem claim_C5_cex :
    toDomainBase "!!!" = "" ∧ ".com" ∈ buildCandidateDomains "!!!" := by
  constructor
  · rfl
  · decide

/-- C5 (amended): `buildCandidateDomains` returns a list with no duplicate
elements in which every element is `base.tld` with the tld drawn from the
configured TLD set; when the name normalizes to an empty base, the
professional variant still emits the candidates (with an empty label) rather
than skipping the base. -/
theorem claim_C5 (name : String) :
    (buildCandidateDomains name).Nodup ∧
    ∀ d ∈ buildCandidateDomains name,
      ∃ tld ∈ allTLDs, d = toDomainBase name ++ "." ++ tld := by
  refine ⟨nodup_jsUniq _, fun d hd => ?_⟩
  have hd' := mem_jsUniq hd
  rcases List.mem_map.mp hd' with ⟨tld, htld, rfl⟩
  exact ⟨tld, mem_jsUniq htld, rfl⟩

/-- C5, witness: the amended theorem applied to the name `linkpulse` and the
candidate `linkpulse.com`. -/
theorem claim_C5_witness :
    "linkpulse.com" ∈ buildCandidateDomains "linkpulse" ∧
    ∃ tld ∈ allTLDs, "linkpulse.com" = toDomainBase "linkpulse" ++ "." ++ tld :=
  ⟨by decide, (claim_C5 "linkpulse").2 "linkpulse.com" (by decide)⟩

/-- C1: `classify` is total and deterministic — for every query and
observation it returns exactly one of the seven match types with its fixed
score, and it coincides with evaluating the six rules in strict precedence
order, first match winning, with `mention`/20 as the default. -/
theorem claim_C1 (nameRaw : String) (result : Obs) :
    ((classifyMatch nameRaw result).type, (classifyMatch nameRaw result).score) ∈
      [ ("exact_domain", 100), ("domain_contains", 80), ("social_exact", 90),
        ("social_contains", 70), ("org_title_exact", 75), ("org_title_contains", 60),
        ("mention", 20)] ∧
    classifyMatch nameRaw result =
      firstRuleMatch (classifyRules nameRaw result) ⟨"mention", 20, none⟩ := by
  constructor
  · simp only [classifyMatch]
    split_ifs <;> simp
  · simp only [classifyMatch, classifyRules, firstRuleMatch]
    split_ifs <;> simp_all

/-- C4: evaluation at the spec scenario query `"linkpulse"`, observed URL
`https://instagram.com/linkpulse/`.  The platform table's
`usernamePathIndex: 1` indexes the path segments AFTER
`split('/').filter(Boolean)`, so for a one-segment profile path the username
is `undefined` → `null`, and the classifier falls through to `mention`/20
instead of `social_exact`/90.  The third conjunct shows the index reads the
second segment: a two-segment path does extract. -/
theorem claim_C4 :
    extractSocialUsername "https://instagram.com/linkpulse/" =
      ⟨some "instagram", none⟩ ∧
    classifyMatch "linkpulse"
        ⟨"https://instagram.com/linkpulse/", none, some "instagram"⟩ =
      ⟨"mention", 20, none⟩ ∧
    (extractSocialUsername "https://instagram.com/p/linkpulse/").username =
      some "linkpulse" := by
  refine ⟨by decide, by decide, by decide⟩

theorem listIsInfix_nil (hay : List Char) : listIsInfix [] hay = true := by
  simp only [listIsInfix, List.any_eq_true, List.mem_range]
  exact ⟨0, Nat.succ_pos _, by simp [List.isPrefixOf]⟩

/-- C10: a query whose slug is empty is classified `domain_contains`/80
against every observation whose sld slug is non-empty, because the empty
query slug is a substring of every non-empty sld slug; such queries never
reach the social, org-title or mention rules when a domain sld is present. -/
theorem claim_C10 (q : String) (r : Obs)
    (hq : slugLettersDigitsHyphen q = "")
    (hsld : slugLettersDigitsHyphen (r.sld.getD "") ≠ "") :
    classifyMatch q r = ⟨"domain_contains", 80, none⟩ := by
  have h1 : (slugLettersDigitsHyphen (r.sld.getD "") != "") = true := by
    simpa using hsld
  have h2 : (slugLettersDigitsHyphen (r.sld.getD "") == slugLettersDigitsHyphen q) = false := by
    rw [hq]
    simpa using hsld
  have h3 : jsIncludes (slugLettersDigitsHyphen (r.sld.getD "")) (slugLettersDigitsHyphen q)
      = true := by
    rw [hq]
    exact listIsInfix_nil _
  simp only [classifyMatch, h1, h2, h3, Bool.true_and, Bool.and_false, Bool.false_eq_true,
    if_false, Bool.true_or, Bool.and_true, if_true]

/-- C10, witness: the degenerate query `"!!!"` against an observation with
sld `instagram`. -/
theorem claim_C10_witness :
    slugLettersDigitsHyphen "!!!" = "" ∧
    (slugLettersDigitsHyphen ((some "instagram" : Option String).getD "") == "") = false ∧
    classifyMatch "!!!" ⟨"", none, some "instagram"⟩ = ⟨"domain_contains", 80, none⟩ :=
  ⟨by decide, by decide, claim_C10 "!!!" ⟨"", none, some "instagram"⟩ (by decide) (by decide)⟩

/-- C8: the certificate-transparency collector returns `{ok:true, entries:[]}`
for an empty body or the "No results found" phrase, `{ok:true, entries:[]}`
for malformed JSON, `{ok:false, error}` for an HTTP error status, and is
total (every result is an ok-result without error or an error-result without
entries) — it never throws past its boundary. -/
theorem claim_C8 (parse : String → Option Json) (res : FetchResp) :
    (res.ok = false →
      checkCrtSh parse res = ⟨false, [], some ("HTTP " ++ toString res.status)⟩) ∧
    (res.ok = true →
      (res.body = "" ∨ jsToLowerStr (jsTrim res.body) = "no results found") →
      checkCrtSh parse res = ⟨true, [], none⟩) ∧
    (res.ok = true → parse res.body = none → checkCrtSh parse res = ⟨true, [], none⟩) ∧
    ((checkCrtSh parse res).ok = true ∧ (checkCrtSh parse res).error = none ∨
      (checkCrtSh parse res).ok = false ∧ (checkCrtSh parse res).entries = []) := by
  refine ⟨fun hok => ?_, fun hok hbody => ?_, fun hok hparse => ?_, ?_⟩
  · simp [checkCrtSh, hok]
  · rcases hbody with hb | hb <;> simp [checkCrtSh, hok, hb]
  · by_cases hb : res.body == "" || jsToLowerStr (jsTrim res.body) == "no results found"
    · simp [checkCrtSh, hok, hb]
    · simp [checkCrtSh, hok, hb, hparse]
  · by_cases hok : res.ok
    · by_cases hb : res.body == "" || jsToLowerStr (jsTrim res.body) == "no results found"
      · left
        simp [checkCrtSh, hok, hb]
      · cases hparse : parse res.body with
        | none => left; simp [checkCrtSh, hok, hb, hparse]
        | some j => left; simp [checkCrtSh, hok, hb, hparse]
    · right
      have hok' : res.ok = false := by simpa using hok
      simp [checkCrtSh, hok']

/-- C8, witness: an ok response whose body is exactly `"No results found"`
yields zero entries and no error; a malformed body under a failing parser
does the same. -/
theorem claim_C8_witness :
    checkCrtSh (fun _ => none) ⟨true, 200, "No results found"⟩ = ⟨true, [], none⟩ ∧
    checkCrtSh (fun _ => none) ⟨true, 200, "not json"⟩ = ⟨true, [], none⟩ :=
  ⟨(claim_C8 (fun _ => none) ⟨true, 200, "No results found"⟩).2.1 rfl (Or.inr (by decide)),
    (claim_C8 (fun _ => none) ⟨true, 200, "not json"⟩).2.2.1 rfl rfl⟩

theorem mem_insertDesc {r a : Record} {l : List Record} :
    a ∈ insertDesc r l ↔ a = r ∨ a ∈ l := by
  induction l with
  | nil => simp [insertDesc]
  | cons x xs ih =>
    by_cases hx : x.match_score ≤ r.match_score
    · simp [insertDesc, hx]
    · simp only [insertDesc, hx, if_false, List.mem_cons, ih]
      tauto

theorem sorted_insertDesc {r : Record} {l : List Record}
    (h : l.Pairwise fun a b => b.match_score ≤ a.match_score) :
    (insertDesc r l).Pairwise fun a b => b.match_score ≤ a.match_score := by
  induction l with
  | nil => simp [insertDesc]
  | cons x xs ih =>
    rcases List.pairwise_cons.mp h with ⟨hx, hxs⟩
    by_cases hle : x.match_score ≤ r.match_score
    · simp only [insertDesc, hle, if_true]
      refine List.pairwise_cons.mpr ⟨?_, h⟩
      intro b hb
      rcases List.mem_cons.mp hb with rfl | hb'
      · exact hle
      · exact le_trans (hx b hb') hle
    · simp only [insertDesc, hle, if_false]
      refine List.pairwise_cons.mpr ⟨?_, ih hxs⟩
      intro b hb
      rcases mem_insertDesc.mp hb with rfl | hb'
      · omega
      · exact hx b hb'

theorem sorted_sortByScoreDesc (l : List Record) :
    (sortByScoreDesc l).Pairwise fun a b => b.match_score ≤ a.match_score := by
  induction l with
  | nil => simp [sortByScoreDesc]
  | cons x xs ih => exact sorted_insertDesc ih

theorem mem_sortByScoreDesc {a : Record} {l : List Record} :
    a ∈ sortByScoreDesc l ↔ a ∈ l := by
  induction l with
  | nil => simp [sortByScoreDesc]
  | cons x xs ih =>
    show a ∈ insertDesc x (sortByScoreDesc xs) ↔ _
    rw [mem_insertDesc]
    simp [ih, eq_comm]

theorem dedupeAux_key_fresh {seen : List String} {l : List Record} {r : Record}
    (h : r ∈ dedupeAux seen l) : dedupKey r ∉ seen ∧ dedupKey r ≠ "" := by
  induction l generalizing seen with
  | nil => simp [dedupeAux] at h
  | cons x xs ih =>
    by_cases hx : dedupKey x = "" ∨ dedupKey x ∈ seen
    · rw [dedupeAux, if_pos hx] at h
      exact ih h
    · rw [dedupeAux, if_neg hx] at h
      push_neg at hx
      rcases List.mem_cons.mp h with rfl | h'
      · exact ⟨hx.2, hx.1⟩
      · have := ih h'
        exact ⟨fun hmem => this.1 (List.mem_cons_of_mem _ hmem), this.2⟩

theorem dedupeAux_pairwise (seen : List String) (l : List Record) :
    (dedupeAux seen l).Pairwise fun a b => dedupKey a ≠ dedupKey b := by
  induction l generalizing seen with
  | nil => simp [dedupeAux]
  | cons x xs ih =>
    by_cases hx : dedupKey x = "" ∨ dedupKey x ∈ seen
    · rw [dedupeAux, if_pos hx]
      exact ih seen
    · rw [dedupeAux, if_neg hx]
      refine List.pairwise_cons.mpr ⟨?_, ih _⟩
      intro b hb heq
      exact (dedupeAux_key_fresh hb).1 (heq ▸ List.mem_cons_self _ _)

theorem dedupeAux_max {seen : List String} {l : List Record}
    (hs : l.Pairwise fun a b => b.match_score ≤ a.match_score) :
    ∀ r ∈ dedupeAux seen l, ∀ s ∈ l, dedupKey s = dedupKey r →
      s.match_score ≤ r.match_score := by
  induction l generalizing seen with
  | nil => simp [dedupeAux]
  | cons x xs ih =>
    rcases List.pairwise_cons.mp hs with ⟨hx, hxs⟩
    intro r hr s hsmem hkey
    by_cases hb : dedupKey x = "" ∨ dedupKey x ∈ seen
    · rw [dedupeAux, if_pos hb] at hr
      rcases List.mem_cons.mp hsmem with rfl | hs'
      · exfalso
        have := dedupeAux_key_fresh hr
        rcases hb with hb | hb
        · exact this.2 (hkey ▸ hb)
        · exact this.1 (hkey ▸ hb)
      · exact ih hxs r hr s hs' hkey
    · rw [dedupeAux, if_neg hb] at hr
      rcases List.mem_cons.mp hr with rfl | hr'
      · rcases List.mem_cons.mp hsmem with rfl | hs'
        · exact le_refl _
        · exact hx s hs'
      · rcases List.mem_cons.mp hsmem with rfl | hs'
        · exfalso
          exact (dedupeAux_key_fresh hr').1 (hkey ▸ List.mem_cons_self _ _)
        · exact ih hxs r hr' s hs' hkey

/-- C2: after deduplication no two surviving records share a deduplication
key, and the record retained for a key carries the maximum `matchScore` among
all input records sharing that key — for every input record set. -/
theorem claim_C2 (l : List Record) :
    ((dedupRecords l).Pairwise fun a b => dedupKey a ≠ dedupKey b) ∧
    ∀ r ∈ dedupRecords l, ∀ s ∈ l, dedupKey s = dedupKey r →
      s.match_score ≤ r.match_score := by
  refine ⟨dedupeAux_pairwise [] _, fun r hr s hs hkey => ?_⟩
  exact dedupeAux_max (sorted_sortByScoreDesc l) r hr s (mem_sortByScoreDesc.mpr hs) hkey

/-- C2, witness: on two records sharing the key `linkpulse.com`, the retained
record is the probe record with the higher score. -/
theorem claim_C2_witness :
    sampleProbeRecord ∈ dedupRecords [ sampleSearchRecord, sampleProbeRecord] ∧
    sampleSearchRecord.match_score ≤ sampleProbeRecord.match_score := by
  have hmem : sampleProbeRecord ∈ dedupRecords [ sampleSearchRecord, sampleProbeRecord] := by
    show sampleProbeRecord ∈ [ sampleProbeRecord]
    exact List.mem_singleton_self _
  exact ⟨hmem,
    (claim_C2 [ sampleSearchRecord, sampleProbeRecord]).2 sampleProbeRecord hmem
      sampleSearchRecord (List.mem_cons_self _ _) rfl⟩

theorem mem_ite_singleton {c : Prop} [Decidable c] {x t : String} :
    (x ∈ if c then [t] else ([] : List String)) ↔ c ∧ x = t := by
  split <;> simp_all

/-- C9, counterexample: a reachable record whose match type starts with
`social` (the `social_probe` entries built in `findNameUsage`) receives NO
`social` tag — `computeUsageSources` tests equality with `social_exact` and
`social_contains`, not the `social` prefix. -/
theorem claim_C9_cex :
    jsStartsWith sampleSocialProbeRecord.match_type "social" = true ∧
    (computeUsageSources sampleSocialProbeRecord).contains "social" = false := by
  refine ⟨by decide, by decide⟩

/-- C9 (amended): the provenance calculator returns exactly these tags:
`WHOIS` iff the WHOIS evidence is ok and not likely-available; `DNS` iff DNS
resolves; `crt.sh` iff the certificate entry count is positive; `social` iff
the matchType IS `social_exact` or `social_contains` (an equality test, so
`social_probe` records get no tag); `org_title` iff the matchType is
`org_title_exact` or `org_title_contains`; `domain_present` iff it is
`exact_domain` or `domain_contains`; `search_hit`/`probe_hit` per origin. -/
theorem claim_C9 (r : Record) :
    ("WHOIS" ∈ computeUsageSources r ↔ recWhoisOk r = true ∧ recWhoisLikely r = false) ∧
    ("DNS" ∈ computeUsageSources r ↔ recDnsResolves r = true) ∧
    ("crt.sh" ∈ computeUsageSources r ↔ 0 < recCrtCount r) ∧
    ("social" ∈ computeUsageSources r ↔
      r.match_type = "social_exact" ∨ r.match_type = "social_contains") ∧
    ("org_title" ∈ computeUsageSources r ↔
      r.match_type = "org_title_exact" ∨ r.match_type = "org_title_contains") ∧
    ("domain_present" ∈ computeUsageSources r ↔
      r.match_type = "exact_domain" ∨ r.match_type = "domain_contains") ∧
    ("search_hit" ∈ computeUsageSources r ↔ r.origin = "search") ∧
    ("probe_hit" ∈ computeUsageSources r ↔ r.origin = "probe") := by
  have hmem : ∀ x : String, x ∈ computeUsageSources r ↔
      ((recWhoisOk r && !recWhoisLikely r) = true ∧ x = "WHOIS") ∨
      (recDnsResolves r = true ∧ x = "DNS") ∨
      (0 < recCrtCount r ∧ x = "crt.sh") ∨
      ((r.match_type == "social_exact" || r.match_type == "social_contains") = true ∧
        x = "social") ∨
      ((r.match_type == "org_title_exact" || r.match_type == "org_title_contains") = true ∧
        x = "org_title") ∨
      ((r.match_type == "exact_domain" || r.match_type == "domain_contains") = true ∧
        x = "domain_present") ∨
      ((r.origin == "search") = true ∧ x = "search_hit") ∨
      ((r.origin == "probe") = true ∧ x = "probe_hit") := by
    intro x
    simp only [computeUsageSources, List.mem_append, mem_ite_singleton, or_assoc]
  refine ⟨?_, ?_, ?_, ?_, ?_, ?_, ?_, ?_⟩ <;>
    rw [hmem] <;>
    simp [Bool.and_eq_true, Bool.not_eq_true', beq_iff_eq]

/-- C3, counterexample: the GitHub checker classifies an HTTP 200 whose body
carries no marker at all (here: the empty body) as Present — `taken` with
high confidence — refuting "a 200 status alone is never classified as
Present" as a statement about every checker. -/
theorem claim_C3_cex :
    checkGitHub "linkpulse" ⟨200, false, none, some ""⟩ =
      ⟨some true, "https://github.com/linkpulse", "taken", "high", none, none⟩ ∧
    jsIncludes "" "Not Found" = false ∧
    jsIncludes "" "404" = false ∧
    ghProfile "linkpulse" "" = false := by
  refine ⟨by decide, by decide, by decide, by decide⟩

/-- C3 (amended): for the Instagram, YouTube, TikTok and LinkedIn checkers,
an HTTP 200 response whose body contains neither that platform's not-found
phrases nor its positive profile markers yields outcome Unknown with
confidence None; the GitHub checker is the exception — it classifies such a
200 as Present (`taken`, high confidence). -/
theorem claim_C3 (username body : String) (resp : ProbeResp)
    (hs : resp.status = 200) (hb : resp.body = some body) :
    (instaNotFound body = false → instaProfile (stripAt username) body = false →
      checkInstagram username resp =
        ⟨none, instaUrl username, "unknown", "none",
          some "Could not verify - check manually", none⟩) ∧
    (ytNotFound body = false → ytProfile (stripAt username) body = false →
      checkYouTube username resp =
        ⟨none, ytUrl username, "unknown", "none",
          some "Could not verify - check manually", none⟩) ∧
    (ttNotFound body = false → ttProfile (stripAt username) body = false →
      checkTikTok username resp =
        ⟨none, ttUrl username, "unknown", "none",
          some "Could not verify - check manually", none⟩) ∧
    (liNotFound body = false → liProfile body = false →
      checkLinkedIn username resp =
        ⟨none, liUrl username, "unknown", "none",
          some "Could not verify - check manually", none⟩) ∧
    (jsIncludes body "Not Found" = false → jsIncludes body "404" = false →
      (checkGitHub username resp).status = "taken" ∧
      (checkGitHub username resp).confidence = "high") := by
  refine ⟨fun h1 h2 => ?_, fun h1 h2 => ?_, fun h1 h2 => ?_, fun h1 h2 => ?_,
    fun h1 h2 => ?_⟩
  · simp [checkInstagram, hs, hb, h1, h2]
  · simp [checkYouTube, hs, hb, h1, h2]
  · simp [checkTikTok, hs, hb, h1, h2]
  · simp [checkLinkedIn, hs, hb, h1, h2]
  · by_cases hp : ghProfile (stripAt username) body = true <;>
      simp [checkGitHub, hs, hb, h1, h2, hp]

/-- C3, witness: a 200 response with the unmarked body `"hello"` — Unknown
from Instagram, `taken` from GitHub. -/
theorem claim_C3_witness :
    checkInstagram "linkpulse" ⟨200, false, none, some "hello"⟩ =
      ⟨none, instaUrl "linkpulse", "unknown", "none",
        some "Could not verify - check manually", none⟩ ∧
    (checkGitHub "linkpulse" ⟨200, false, none, some "hello"⟩).status = "taken" :=
  ⟨(claim_C3 "linkpulse" "hello" ⟨200, false, none, some "hello"⟩ rfl rfl).1
      (by decide) (by decide),
    ((claim_C3 "linkpulse" "hello" ⟨200, false, none, some "hello"⟩ rfl rfl).2.2.2.2
      (by decide) (by decide)).1⟩

theorem domainScoreVal_le (results : List Record) : domainScoreVal results ≤ 100 := by
  unfold domainScoreVal
  split_ifs <;> omega

theorem socialScoreVal_le (results : List Record) : socialScoreVal results ≤ 100 := by
  unfold socialScoreVal
  have h : (criticalPlatforms.countP fun p => platformAvailable results p) ≤ 4 :=
    List.countP_le_length _
  omega

theorem trademarkScoreVal_le (results : List Record) : trademarkScoreVal results ≤ 100 := by
  unfold trademarkScoreVal
  split_ifs <;> omega

theorem seoLengthPts_le (n : Nat) : seoLengthPts n ≤ 15 := by
  unfold seoLengthPts
  split_ifs <;> omega

theorem seoCharPts_le (l : List Char) : seoCharPts l ≤ 20 := by
  unfold seoCharPts
  split_ifs <;> omega

theorem seoMemPts_le (l : List Char) : seoMemPts l ≤ 25 := by
  simp only [seoMemPts]
  split_ifs <;> omega

theorem seoPronPts_le (l : List Char) : seoPronPts l ≤ 20 := by
  unfold seoPronPts
  split_ifs <;> omega

theorem seoUniqPts_le (l : List Char) : seoUniqPts l ≤ 20 := by
  unfold seoUniqPts
  split_ifs <;> omega

theorem seoPercentage_le (name : String) : seoPercentage name ≤ 100 := by
  have h1 := seoLengthPts_le (seoClean name).length
  have h2 := seoCharPts_le (seoClean name)
  have h3 := seoMemPts_le (seoClean name)
  have h4 := seoPronPts_le (seoClean name)
  have h5 := seoUniqPts_le (seoClean name)
  unfold seoPercentage seoTotal
  omega

theorem memPercentage_le (name : String) : memPercentage name ≤ 100 :=
  Nat.min_le_left _ _

theorem jsRound_natCast_div100 (n : Nat) :
    jsRound ((n : ℚ) / 100) = ((n + 50) / 100 : ℕ) := by
  unfold jsRound
  have h : (n : ℚ) / 100 + 1 / 2 = ((n + 50 : ℕ) : ℚ) / 100 := by
    push_cast
    ring
  rw [h, show ((100 : ℚ)) = ((100 : ℕ) : ℚ) by norm_num, Rat.floor_natCast_div_natCast]
  exact_mod_cast rfl

theorem gradeOf_iff (o : ℤ) :
    (gradeOf o = "A+ (Excellent)" ↔ 90 ≤ o) ∧
    (gradeOf o = "A (Very Good)" ↔ 80 ≤ o ∧ o < 90) ∧
    (gradeOf o = "B (Good)" ↔ 70 ≤ o ∧ o < 80) ∧
    (gradeOf o = "C (Fair)" ↔ 60 ≤ o ∧ o < 70) ∧
    (gradeOf o = "D (Poor)" ↔ 50 ≤ o ∧ o < 60) ∧
    (gradeOf o = "F (Not Recommended)" ↔ o < 50) := by
  unfold gradeOf
  split_ifs <;> refine ⟨?_, ?_, ?_, ?_, ?_, ?_⟩ <;> simp_all <;> omega

theorem calculateBrandScore_overall (name : String) (results : List Record) :
    (calculateBrandScore name results).overall =
      ((domainScoreVal results * 30 + socialScoreVal results * 25 +
        trademarkScoreVal results * 20 + seoPercentage name * 15 +
        memPercentage name * 10 + 50) / 100 : ℕ) := by
  show jsRound _ = _
  have h : ((domainScoreVal results * 30 : ℚ) / 100 + (socialScoreVal results * 25 : ℚ) / 100 +
      (trademarkScoreVal results * 20 : ℚ) / 100 + (seoPercentage name * 15 : ℚ) / 100 +
      (memPercentage name * 10 : ℚ) / 100) =
      (((domainScoreVal results * 30 + socialScoreVal results * 25 +
        trademarkScoreVal results * 20 + seoPercentage name * 15 +
        memPercentage name * 10 : ℕ) : ℚ) / 100) := by
    push_cast
    ring
  rw [h, jsRound_natCast_div100]

/-- C7: `BrandScore.overall` lies in `[0, 100]` and equals the rounded sum of
the five weighted sub-scores (weights 30/25/20/15/10), and the grade
boundaries are exact inclusive lower bounds — `overall ≥ 90` is graded A+,
`≥ 80` A, `≥ 70` B, `≥ 60` C, `≥ 50` D, otherwise F — so `overall = 90`
yields the A+ grade and `overall = 89` the A grade. -/
theorem claim_C7 (name : String) (results : List Record) :
    (0 ≤ (calculateBrandScore name results).overall ∧
      (calculateBrandScore name results).overall ≤ 100) ∧
    (calculateBrandScore name results).overall =
      ((domainScoreVal results * 30 + socialScoreVal results * 25 +
        trademarkScoreVal results * 20 + seoPercentage name * 15 +
        memPercentage name * 10 + 50) / 100 : ℕ) ∧
    ((calculateBrandScore name results).grade = "A+ (Excellent)" ↔
      90 ≤ (calculateBrandScore name results).overall) ∧
    ((calculateBrandScore name results).grade = "A (Very Good)" ↔
      80 ≤ (calculateBrandScore name results).overall ∧
      (calculateBrandScore name results).overall < 90) ∧
    ((calculateBrandScore name results).grade = "B (Good)" ↔
      70 ≤ (calculateBrandScore name results).overall ∧
      (calculateBrandScore name results).overall < 80) ∧
    ((calculateBrandScore name results).grade = "C (Fair)" ↔
      60 ≤ (calculateBrandScore name results).overall ∧
      (calculateBrandScore name results).overall < 70) ∧
    ((calculateBrandScore name results).grade = "D (Poor)" ↔
      50 ≤ (calculateBrandScore name results).overall ∧
      (calculateBrandScore name results).overall < 60) ∧
    ((calculateBrandScore name results).grade = "F (Not Recommended)" ↔
      (calculateBrandScore name results).overall < 50) := by
  have hoverall := calculateBrandScore_overall name results
  have hgrade : (calculateBrandScore name results).grade =
      gradeOf (calculateBrandScore name results).overall := rfl
  have hbounds : (domainScoreVal results * 30 + socialScoreVal results * 25 +
      trademarkScoreVal results * 20 + seoPercentage name * 15 +
      memPercentage name * 10 + 50) / 100 ≤ 100 := by
    have h1 := domainScoreVal_le results
    have h2 := socialScoreVal_le results
    have h3 := trademarkScoreVal_le results
    have h4 := seoPercentage_le name
    have h5 := memPercentage_le name
    have : domainScoreVal results * 30 + socialScoreVal results * 25 +
        trademarkScoreVal results * 20 + seoPercentage name * 15 +
        memPercentage name * 10 + 50 ≤ 10050 := by omega
    calc _ ≤ 10050 / 100 := Nat.div_le_div_right this
    _ = 100 := by norm_num
  refine ⟨⟨?_, ?_⟩, hoverall, ?_⟩
  · rw [hoverall]
    exact_mod_cast Nat.zero_le _
  · rw [hoverall]
    exact_mod_cast hbounds
  · rw [hgrade]
    exact gradeOf_iff _

end NameRadar
